import Mathlib

/-!
Verification of the readahead observation tool (src/libbpf-tools/readahead.c).

The repository source contains the user-space orchestration (`main`,
`parse_arg`, `libbpf_print_fn`, `sig_handler`).  The kernel-side lifecycle
tracker (the BPF program, its histogram and page record table) is not part of
the visible source; it is modelled here from the specification's data model
and transition table (spec sections 3, 4.1 to 4.3).  The orchestration is
embedded directly from readahead.c.
-/

namespace Readahead

/-- Modelled from the spec: the histogram bucket count N.  The BPF-side header
defining MAX_SLOTS is not in the visible source; the spec fixes N as a
constant, historically 27, covering sub-millisecond through multi-minute
latencies. -/
def MAX_SLOTS : Nat := 27

/-- Modelled from the spec: `bucket_index(latency_ms)` returns
`floor(log2(max(latency_ms,1)))` clamped to `[0, N-1]`.  The BPF-side log2
helper is not in the visible source. -/
def bucket_index (latency_ms : Nat) : Nat :=
  min (Nat.log 2 (max latency_ms 1)) (MAX_SLOTS - 1)

theorem bucket_index_lt (l : Nat) : bucket_index l < MAX_SLOTS :=
  lt_of_le_of_lt (min_le_right _ _) (by decide)

/-- The bucket index packaged with its range proof, for indexing the slots. -/
def bucketFin (l : Nat) : Fin MAX_SLOTS := ⟨bucket_index l, bucket_index_lt l⟩

/-- Modelled from the spec: the session-scoped histogram aggregate, with
`slots[N]` counters and the scalar `total`.  Per the spec's resolution of the
`unused` open question (section 4.3), `unused` is derived at session end as
`total - Σslots` rather than stored. -/
structure Hist where
  slots : Fin MAX_SLOTS → Nat
  total : Nat

/-- Sum of all histogram slot counters. -/
def sumSlots (h : Hist) : Nat := Finset.univ.sum h.slots

/-- Modelled from the spec: `unused` is computed once, at session end, as
`total - Σslots`. -/
def unused (h : Hist) : Nat := h.total - sumSlots h

/-- Modelled from the spec: `record_used(latency_ms)` increments
`slots[bucket_index(latency_ms)]`; per the revised contract of section 4.3 it
does not increment `total` (which counts at allocation time). -/
def record_used (h : Hist) (latency_ms : Nat) : Hist :=
  { h with slots := (Function.update h.slots (bucketFin latency_ms)
      (h.slots (bucketFin latency_ms) + 1)) }

def emptyHist : Hist := ⟨fun _ => 0, 0⟩

/-- Modelled from the spec: Page Record Table lookup by page identity
(association list of page identity and allocation timestamp). -/
def tblLookup (id : Nat) : List (Nat × Nat) → Option Nat
  | [] => none
  | (k, v) :: t => if k = id then some v else tblLookup id t

/-- Modelled from the spec: removal of the record for a page identity, used
both by `take` and by overwrite-on-reuse in `insert`. -/
def tblRemove (id : Nat) : List (Nat × Nat) → List (Nat × Nat)
  | [] => []
  | (k, v) :: t => if k = id then tblRemove id t else (k, v) :: tblRemove id t

/-- Modelled from the spec: `insert(page_identity, timestamp)`; an existing
entry for the identity is overwritten, last allocation wins. -/
def tblInsert (id ts : Nat) (t : List (Nat × Nat)) : List (Nat × Nat) :=
  (id, ts) :: tblRemove id t

/-- Modelled from the spec: the four event types consumed by the Lifecycle
Tracker. -/
inductive Event
  | window_start
  | window_end
  | page_allocated (id ts : Nat)
  | page_accessed (id ts : Nat)

/-- Modelled from the spec: the Lifecycle Tracker state: the window flag, the
Page Record Table and the Histogram. -/
structure Tracker where
  window_open : Bool
  birth : List (Nat × Nat)
  hist : Hist

/-- Modelled from the spec: the transition table of section 4.3.
window-start/end toggle the flag; page-allocated inserts a record and bumps
`total` only while the window is open; page-accessed takes the record if
present, records the latency sample, and otherwise is a no-op. -/
def step (s : Tracker) : Event → Tracker
  | .window_start => { s with window_open := true }
  | .window_end => { s with window_open := false }
  | .page_allocated id ts =>
      if s.window_open then
        { s with birth := tblInsert id ts s.birth,
                 hist := { s.hist with total := s.hist.total + 1 } }
      else s
  | .page_accessed id ts_now =>
      match tblLookup id s.birth with
      | some allocated_at =>
          { s with birth := tblRemove id s.birth,
                   hist := record_used s.hist (ts_now - allocated_at) }
      | none => s

/-- Initial tracker state: window closed, empty table, zero histogram. -/
def initTracker : Tracker := ⟨false, [], emptyHist⟩

/-- Process a finite sequence of events from a given state. -/
def processEvents (s : Tracker) (evs : List Event) : Tracker := evs.foldl step s

theorem sumSlots_record_used (h : Hist) (l : Nat) :
    sumSlots (record_used h l) = sumSlots h + 1 := by
  unfold sumSlots record_used
  rw [Finset.sum_update_of_mem (Finset.mem_univ _), ← Finset.erase_eq,
    ← Finset.add_sum_erase _ h.slots (Finset.mem_univ (bucketFin l))]
  omega

theorem total_record_used (h : Hist) (l : Nat) :
    (record_used h l).total = h.total := rfl

theorem tblRemove_length_le (id : Nat) (t : List (Nat × Nat)) :
    (tblRemove id t).length ≤ t.length := by
  induction t with
  | nil => simp [tblRemove]
  | cons p t ih =>
      obtain ⟨k, v⟩ := p
      by_cases h : k = id <;> simp [tblRemove, h] <;> omega

theorem tblRemove_length_lt (id : Nat) (t : List (Nat × Nat)) (v : Nat)
    (h : tblLookup id t = some v) : (tblRemove id t).length < t.length := by
  induction t with
  | nil => simp [tblLookup] at h
  | cons p t ih =>
      obtain ⟨k, w⟩ := p
      by_cases hk : k = id
      · have := tblRemove_length_le id t
        simp [tblRemove, hk]
        omega
      · simp [tblLookup, hk] at h
        have := ih h
        simp [tblRemove, hk]
        omega

theorem tblLookup_remove_self (id : Nat) (t : List (Nat × Nat)) :
    tblLookup id (tblRemove id t) = none := by
  induction t with
  | nil => simp [tblRemove, tblLookup]
  | cons p t ih =>
      obtain ⟨k, v⟩ := p
      by_cases h : k = id <;> simp [tblRemove, tblLookup, h, ih]

theorem tblLookup_remove_ne (i id : Nat) (t : List (Nat × Nat)) (h : i ≠ id) :
    tblLookup i (tblRemove id t) = tblLookup i t := by
  induction t with
  | nil => simp [tblRemove]
  | cons p t ih =>
      obtain ⟨k, v⟩ := p
      by_cases hk : k = id
      · subst hk
        simp [tblRemove, tblLookup, Ne.symm h, ih]
      · by_cases hi : k = i <;> simp [tblRemove, tblLookup, hk, hi, h, ih]

theorem sumSlots_set_total (h : Hist) (n : Nat) :
    sumSlots { h with total := n } = sumSlots h := rfl

theorem step_bound (s : Tracker) (e : Event)
    (h : sumSlots s.hist + s.birth.length ≤ s.hist.total) :
    sumSlots (step s e).hist + (step s e).birth.length ≤ (step s e).hist.total := by
  cases e with
  | window_start => exact h
  | window_end => exact h
  | page_allocated id ts =>
      cases hw : s.window_open with
      | false => simpa [step, hw] using h
      | true =>
          have hle := tblRemove_length_le id s.birth
          simp [step, hw, tblInsert, sumSlots_set_total]
          omega
  | page_accessed id ts =>
      cases hl : tblLookup id s.birth with
      | none => simpa [step, hl] using h
      | some v =>
          have h1 := tblRemove_length_lt id s.birth v hl
          simp [step, hl, sumSlots_record_used, total_record_used]
          omega

theorem processEvents_bound (evs : List Event) (s : Tracker)
    (h : sumSlots s.hist + s.birth.length ≤ s.hist.total) :
    sumSlots (processEvents s evs).hist + (processEvents s evs).birth.length ≤
      (processEvents s evs).hist.total := by
  induction evs generalizing s with
  | nil => exact h
  | cons e evs ih => exact ih (step s e) (step_bound s e h)

/-- Claim C3: for every finite sequence of window-start, window-end,
page-allocated and page-accessed events processed by the Lifecycle Tracker
from its initial state, the histogram satisfies
total == unused + sum over i of slots[i] when the session ends. -/
theorem total_eq_unused_add_sumSlots (evs : List Event) :
    (processEvents initTracker evs).hist.total =
      unused (processEvents initTracker evs).hist +
        sumSlots (processEvents initTracker evs).hist := by
  have h := processEvents_bound evs initTracker
    (by simp [initTracker, emptyHist, sumSlots])
  unfold unused
  omega

/-- Claim C5: a page-allocated event delivered while window_open == false
creates no Page Record Table entry and does not change the histogram total:
it is a complete no-op on tracker state. -/
theorem page_allocated_closed_noop (s : Tracker) (id ts : Nat)
    (h : s.window_open = false) : step s (Event.page_allocated id ts) = s := by
  simp [step, h]

theorem page_allocated_closed_noop_witness :
    initTracker.window_open = false ∧
      step initTracker (Event.page_allocated 5 7) = initTracker :=
  ⟨rfl, page_allocated_closed_noop initTracker 5 7 rfl⟩

theorem tblLookup_none_preserved (id : Nat) (evs : List Event) (s : Tracker)
    (h : tblLookup id s.birth = none)
    (hna : ∀ ts, Event.page_allocated id ts ∉ evs) :
    tblLookup id (processEvents s evs).birth = none := by
  induction evs generalizing s with
  | nil => exact h
  | cons e evs ih =>
      have hna' : ∀ ts, Event.page_allocated id ts ∉ evs := fun ts hmem =>
        hna ts (List.mem_cons_of_mem _ hmem)
      have hstep : tblLookup id (step s e).birth = none := by
        cases e with
        | window_start => exact h
        | window_end => exact h
        | page_allocated i ts =>
            have hne : i ≠ id := fun hEq => by
              subst hEq; exact hna ts (List.mem_cons_self _ _)
            cases hw : s.window_open with
            | false => simpa [step, hw] using h
            | true =>
                simp [step, hw, tblInsert, tblLookup, hne,
                  tblLookup_remove_ne id i s.birth (Ne.symm hne), h]
        | page_accessed i ts =>
            cases hl : tblLookup i s.birth with
            | none => simpa [step, hl] using h
            | some v =>
                by_cases hii : i = id
                · subst hii
                  simp [step, hl, tblLookup_remove_self]
                · simp [step, hl,
                    tblLookup_remove_ne id i s.birth (fun hh => hii hh.symm), h]
      exact ih (step s e) hstep hna'

/-- Claim C6: delivering page-accessed twice for the same page identity with
no intervening page-allocated for that identity classifies the page at most
once: the second delivery finds no record (take returns nothing) and leaves
the Page Record Table and Histogram (the whole tracker state) unchanged. -/
theorem page_accessed_twice_noop (s : Tracker) (id t1 t2 : Nat)
    (mid : List Event) (hna : ∀ ts, Event.page_allocated id ts ∉ mid) :
    tblLookup id (processEvents (step s (Event.page_accessed id t1)) mid).birth
        = none ∧
      step (processEvents (step s (Event.page_accessed id t1)) mid)
          (Event.page_accessed id t2) =
        processEvents (step s (Event.page_accessed id t1)) mid := by
  have h0 : tblLookup id (step s (Event.page_accessed id t1)).birth = none := by
    cases hl : tblLookup id s.birth with
    | none => simp [step, hl]
    | some v => simp [step, hl, tblLookup_remove_self]
  have h1 := tblLookup_none_preserved id mid _ h0 hna
  refine ⟨h1, ?_⟩
  generalize hS : processEvents (step s (Event.page_accessed id t1)) mid = s1 at h1 ⊢
  simp [step, h1]

theorem page_accessed_twice_noop_witness :
    tblLookup 4 (processEvents (step initTracker (Event.page_accessed 4 10))
        [Event.window_start]).birth = none ∧
      step (processEvents (step initTracker (Event.page_accessed 4 10))
          [Event.window_start]) (Event.page_accessed 4 12) =
        processEvents (step initTracker (Event.page_accessed 4 10))
          [Event.window_start] :=
  page_accessed_twice_noop initTracker 4 10 12 [Event.window_start]
    (by intro ts hmem; simp at hmem)

/-- Claim C4: bucket_index is a pure function returning
floor(log2(max(latency_ms,1))) clamped to [0, N-1]; it is monotonic
non-decreasing, and bucket_index(2^k) == k for every k with 0 <= k < N. -/
theorem bucket_index_spec :
    (∀ l, bucket_index l = min (Nat.log 2 (max l 1)) (MAX_SLOTS - 1) ∧
      bucket_index l < MAX_SLOTS) ∧
    (∀ a b, a ≤ b → bucket_index a ≤ bucket_index b) ∧
    (∀ k, k < MAX_SLOTS → bucket_index (2 ^ k) = k) := by
  refine ⟨fun l => ⟨rfl, bucket_index_lt l⟩, fun a b hab => ?_, fun k hk => ?_⟩
  · exact min_le_min
      (Nat.log_mono_right (max_le_max hab (le_refl 1))) (le_refl _)
  · have h1 : max (2 ^ k) 1 = 2 ^ k := max_eq_left (Nat.one_le_two_pow)
    have h2 : Nat.log 2 (2 ^ k) = k := Nat.log_pow (by decide) k
    have h3 : k ≤ MAX_SLOTS - 1 := by omega
    simp [bucket_index, h1, h2, Nat.min_eq_left h3]

theorem bucket_index_spec_witness :
    (3 : Nat) ≤ 9 ∧ bucket_index 3 ≤ bucket_index 9 ∧
      4 < MAX_SLOTS ∧ bucket_index (2 ^ 4) = 4 :=
  ⟨by decide, bucket_index_spec.2.1 3 9 (by decide), by decide,
    bucket_index_spec.2.2 4 (by decide)⟩

theorem processEvents_cons (s : Tracker) (e : Event) (evs : List Event) :
    processEvents s (e :: evs) = processEvents (step s e) evs := rfl

/-- Modelled from the spec: the interleavings of N producers each performing
one allocate-then-access cycle on its own page identity inside one open
window.  `Sched w p evs` holds when `evs` is such an interleaving in which
the identities in `w` still await their allocation and those in `p` are
allocated but not yet accessed. -/
inductive Sched : List Nat → List Nat → List Event → Prop
  | nil : Sched [] [] []
  | alloc {w p evs} (i t : Nat) (hw : i ∈ w)
      (rest : Sched (w.erase i) (i :: p) evs) :
      Sched w p (Event.page_allocated i t :: evs)
  | access {w p evs} (i t : Nat) (hp : i ∈ p)
      (rest : Sched w (p.erase i) evs) :
      Sched w p (Event.page_accessed i t :: evs)

theorem sched_run {w p : List Nat} {evs : List Event} (hs : Sched w p evs) :
    ∀ s : Tracker, s.window_open = true → w.Nodup → p.Nodup →
      (∀ i, i ∈ w → i ∉ p) →
      (∀ i, i ∈ p → (tblLookup i s.birth).isSome = true) →
      (processEvents s evs).hist.total = s.hist.total + w.length ∧
        sumSlots (processEvents s evs).hist =
          sumSlots s.hist + w.length + p.length := by
  induction hs with
  | nil => intro s _ _ _ _ _; simp [processEvents]
  | alloc i t hw rest ih =>
      rename_i w p evs
      intro s hopen hndw hndp hdisj hlk
      have e1 : (step s (Event.page_allocated i t)).window_open = true := by
        simp [step, hopen]
      have e2 : (step s (Event.page_allocated i t)).birth =
          tblInsert i t s.birth := by simp [step, hopen]
      have e3 : (step s (Event.page_allocated i t)).hist.total =
          s.hist.total + 1 := by simp [step, hopen]
      have e4 : sumSlots (step s (Event.page_allocated i t)).hist =
          sumSlots s.hist := by simp [step, hopen, sumSlots_set_total]
      have hinp : i ∉ p := hdisj i hw
      have hndw' : (w.erase i).Nodup := hndw.erase i
      have hndp' : (i :: p).Nodup := List.nodup_cons.mpr ⟨hinp, hndp⟩
      have hdisj' : ∀ j, j ∈ w.erase i → j ∉ i :: p := by
        intro j hj hmem
        have hj' := hndw.mem_erase_iff.mp hj
        rcases List.mem_cons.mp hmem with h | h
        · exact hj'.1 h
        · exact hdisj j hj'.2 h
      have hlk' : ∀ j, j ∈ i :: p →
          (tblLookup j (step s (Event.page_allocated i t)).birth).isSome
            = true := by
        intro j hj
        rw [e2]
        rcases List.mem_cons.mp hj with h | h
        · subst h; simp [tblInsert, tblLookup]
        · have hne : j ≠ i := fun hEq => hinp (hEq ▸ h)
          simp [tblInsert, tblLookup, Ne.symm hne,
            tblLookup_remove_ne j i s.birth hne, hlk j h]
      have hres := ih (step s (Event.page_allocated i t)) e1 hndw' hndp'
        hdisj' hlk'
      rw [processEvents_cons]
      have hlw := List.length_erase_add_one hw
      rw [e3, e4] at hres
      simp only [List.length_cons] at hres
      exact ⟨by omega, by omega⟩
  | access i t hp rest ih =>
      rename_i w p evs
      intro s hopen hndw hndp hdisj hlk
      obtain ⟨ts0, hsome⟩ := Option.isSome_iff_exists.mp (hlk i hp)
      have e1 : (step s (Event.page_accessed i t)).window_open = true := by
        simp [step, hsome, hopen]
      have e2 : (step s (Event.page_accessed i t)).birth =
          tblRemove i s.birth := by simp [step, hsome]
      have e3 : (step s (Event.page_accessed i t)).hist.total =
          s.hist.total := by simp [step, hsome, total_record_used]
      have e4 : sumSlots (step s (Event.page_accessed i t)).hist =
          sumSlots s.hist + 1 := by simp [step, hsome, sumSlots_record_used]
      have hndp' : (p.erase i).Nodup := hndp.erase i
      have hdisj' : ∀ j, j ∈ w → j ∉ p.erase i := fun j hj hmem =>
        hdisj j hj (List.mem_of_mem_erase hmem)
      have hlk' : ∀ j, j ∈ p.erase i →
          (tblLookup j (step s (Event.page_accessed i t)).birth).isSome
            = true := by
        intro j hj
        have hj' := hndp.mem_erase_iff.mp hj
        rw [e2, tblLookup_remove_ne j i s.birth hj'.1]
        exact hlk j hj'.2
      have hres := ih (step s (Event.page_accessed i t)) e1 hndw hndp'
        hdisj' hlk'
      rw [processEvents_cons]
      have hlp := List.length_erase_add_one hp
      rw [e3, e4] at hres
      exact ⟨by omega, by omega⟩

/-- Claim C9: for every N and every interleaving of N producers each
performing one allocate-then-access cycle on distinct page identities while
a single window is open, the final histogram has total == N, unused == 0,
and the sum of slots == N. -/
theorem producers_cycle_histogram (N : Nat) (ids : List Nat)
    (evs : List Event) (hlen : ids.length = N) (hnd : ids.Nodup)
    (hs : Sched ids [] evs) :
    (processEvents (step initTracker Event.window_start) evs).hist.total = N ∧
      sumSlots (processEvents (step initTracker Event.window_start) evs).hist
        = N ∧
      unused (processEvents (step initTracker Event.window_start) evs).hist
        = 0 := by
  have h := sched_run hs (step initTracker Event.window_start) rfl hnd
    List.nodup_nil (by simp) (by simp)
  have h0 : (step initTracker Event.window_start).hist.total = 0 := rfl
  have h1 : sumSlots (step initTracker Event.window_start).hist = 0 := by
    simp [step, initTracker, emptyHist, sumSlots]
  rw [h0, h1] at h
  obtain ⟨ht, hsum⟩ := h
  simp only [List.length_nil] at hsum
  refine ⟨by omega, by omega, ?_⟩
  unfold unused
  omega

theorem producers_cycle_histogram_witness :
    ([1, 2] : List Nat).Nodup ∧
      (processEvents (step initTracker Event.window_start)
          [Event.page_allocated 1 10, Event.page_allocated 2 11,
            Event.page_accessed 2 20, Event.page_accessed 1 30]).hist.total
        = 2 ∧
      sumSlots (processEvents (step initTracker Event.window_start)
          [Event.page_allocated 1 10, Event.page_allocated 2 11,
            Event.page_accessed 2 20, Event.page_accessed 1 30]).hist = 2 ∧
      unused (processEvents (step initTracker Event.window_start)
          [Event.page_allocated 1 10, Event.page_allocated 2 11,
            Event.page_accessed 2 20, Event.page_accessed 1 30]).hist = 0 := by
  have hs : Sched [1, 2] []
      [Event.page_allocated 1 10, Event.page_allocated 2 11,
        Event.page_accessed 2 20, Event.page_accessed 1 30] := by
    apply Sched.alloc 1 10 (by decide)
    apply Sched.alloc 2 11 (by decide)
    apply Sched.access 2 20 (by decide)
    apply Sched.access 1 30 (by decide)
    exact Sched.nil
  have h := producers_cycle_histogram 2 [1, 2] _ rfl (by decide) hs
  exact ⟨by decide, h.1, h.2.1, h.2.2⟩

/-!
Orchestration, embedded from src/libbpf-tools/readahead.c.
-/

/-- The libbpf print levels relevant to `libbpf_print_fn`. -/
inductive PrintLevel
  | warn
  | info
  | debug
deriving DecidableEq

/-- From readahead.c `libbpf_print_fn` (lines 62-68): returns whether the
diagnostic message is written to stderr.  Debug-level messages are dropped
unless `env.verbose` is set; all other levels are always written. -/
def libbpf_print_fn (verbose : Bool) (level : PrintLevel) : Bool :=
  match level, verbose with
  | .debug, false => false
  | _, _ => true

/-- From readahead.c `struct env` (lines 16-21): duration (default -1) and
the verbose flag. -/
structure Env where
  duration : Int
  verbose : Bool
deriving DecidableEq

/-- The initializer of `env` in readahead.c: `.duration = -1`, verbose
false. -/
def initEnv : Env := ⟨-1, false⟩

/-- A command-line option delivered to `parse_arg`: `-v`, or `-d ARG` where
the argument text is represented by the result of `strtol(arg, NULL, 10)`
and whether errno was set by the conversion. -/
inductive Opt
  | verbose
  | duration (strtolResult : Int) (errnoSet : Bool)

/-- Outcome of argument parsing: either the final `env`, or termination via
`argp_usage` (which prints usage and exits the process with the non-zero
argp error status, 64 by default). -/
inductive ParseResult
  | ok (e : Env)
  | usageError
deriving DecidableEq

/-- The implicit long-to-int conversion in `env.duration = strtol(arg, NULL,
10)` (readahead.c line 50): strtol returns a 64-bit long, and the assignment
to the 32-bit `int` field wraps it into `[-2^31, 2^31)` modulo `2^32`. -/
def wrap32 (v : Int) : Int := (v + 2 ^ 31) % 2 ^ 32 - 2 ^ 31

/-- From readahead.c `parse_arg` (lines 42-60): `-v` sets verbose; `-d`
converts its argument with strtol, stores the long-to-int wrapped result in
`env.duration`, and calls `argp_usage` when errno is set or the stored
(wrapped) duration is non-positive. -/
def parse_arg (e : Env) : Opt → ParseResult
  | .verbose => .ok { e with verbose := true }
  | .duration v errnoSet =>
      if errnoSet ∨ wrap32 v ≤ 0 then .usageError
      else .ok { e with duration := wrap32 v }

/-- `argp_parse` folding `parse_arg` over the option list, stopping at a
usage error (argp_usage exits the process). -/
def argp_parse (e : Env) : List Opt → ParseResult
  | [] => .ok e
  | o :: rest =>
      match parse_arg e o with
      | .ok e2 => argp_parse e2 rest
      | .usageError => .usageError

/-- The BPF-side histogram as read from `obj->bss->hist` at report time
(`struct hist` of the readahead common header: unused, total, slots). -/
structure BpfHist where
  unusedPages : Int
  totalPages : Int
  slotCounts : List Int
deriving DecidableEq

/-- Outcomes of the external collaborators consumed by `main`:
`bump_memlock_rlimit`, `readahead_bpf__open_and_load`, `ksyms__load`, the
two `ksyms__get_symbol` queries, the `libbpf_get_error` result of each
`bpf_program__attach` call, whether SIGINT arrived during `sleep`, and the
histogram contents in BPF memory at report time. -/
structure World where
  memlockErr : Int
  openLoadOk : Bool
  ksymsOk : Bool
  hasRa : Bool
  hasLegacy : Bool
  attachRaErr : Int
  attachRaRetErr : Int
  attachLegacyErr : Int
  attachLegacyRetErr : Int
  attachAllocRetErr : Int
  attachMarkAccessedErr : Int
  interrupted : Bool
  hist : BpfHist
deriving DecidableEq

/-- Observable result of one run of `main`: the process exit status, the BPF
programs successfully attached (in attach order), the histogram report
printed to stdout (none if the run never reached the report), whether the
blocking wait ran its full duration, and the duration value passed to
`sleep` (none if never reached). -/
structure MainResult where
  exitCode : Int
  attached : List String
  report : Option BpfHist
  sleptFull : Bool
  sleptFor : Option Int
deriving DecidableEq

/-- The tail of `main` after the readahead entry-point pair was attached
(readahead.c lines 160-196): attach `page_cache_alloc_ret` and
`mark_page_accessed`, install the SIGINT handler, sleep for the configured
duration (cut short if a SIGINT arrives), print the histogram, and return
`err != 0` where `err` is 0 on this path. -/
def afterWindowAttach (w : World) (e : Env) (links : List String) :
    MainResult :=
  if w.attachAllocRetErr ≠ 0 then ⟨1, links, none, false, none⟩
  else if w.attachMarkAccessedErr ≠ 0 then
    ⟨1, links ++ ["page_cache_alloc_ret"], none, false, none⟩
  else
    ⟨0, links ++ ["page_cache_alloc_ret", "mark_page_accessed"],
      some w.hist, !w.interrupted, some e.duration⟩

/-- From readahead.c `main` (lines 75-196), with each external call's
outcome drawn from `World`.  Exit codes mirror the source: `return err`
after `argp_parse`; `return 1` for memlock and open/load failures; for every
`goto cleanup` path the final `return err != 0` yields 1 when the last
recorded libbpf error was non-zero and 0 otherwise — in particular the
kallsyms-load-failure and symbol-not-found paths reach cleanup with `err`
still 0. -/
def mainModel (w : World) (opts : List Opt) : MainResult :=
  match argp_parse initEnv opts with
  | .usageError => ⟨64, [], none, false, none⟩
  | .ok e =>
      if w.memlockErr ≠ 0 then ⟨1, [], none, false, none⟩
      else if w.openLoadOk = false then ⟨1, [], none, false, none⟩
      else if w.ksymsOk = false then ⟨0, [], none, false, none⟩
      else if w.hasRa then
        if w.attachRaErr ≠ 0 then ⟨1, [], none, false, none⟩
        else if w.attachRaRetErr ≠ 0 then
          ⟨1, ["do_page_cache_ra"], none, false, none⟩
        else afterWindowAttach w e ["do_page_cache_ra", "do_page_cache_ra_ret"]
      else if w.hasLegacy then
        if w.attachLegacyErr ≠ 0 then ⟨1, [], none, false, none⟩
        else if w.attachLegacyRetErr ≠ 0 then
          ⟨1, ["do_page_cache_readahead"], none, false, none⟩
        else afterWindowAttach w e
          ["do_page_cache_readahead", "do_page_cache_readahead_ret"]
      else ⟨0, [], none, false, none⟩

/-- A world where every external collaborator succeeds: both kernel symbols
resolve, every attach succeeds, no interrupt, and some concrete histogram
contents in BPF memory. -/
def cleanWorld : World :=
  ⟨0, true, true, true, true, 0, 0, 0, 0, 0, 0, false, ⟨3, 10, [1, 2]⟩⟩

/-- Claim C1 (code bug): the claim and spec require a non-zero exit status on
every setup failure, but in readahead.c the kallsyms-load-failure path
(line 106) and the symbol-not-found path (line 153) jump to cleanup with
`err` still 0, so `return err != 0` yields exit status 0.  No histogram is
printed on those paths; attach failures and the clean run do behave as
claimed (exit 1 and 0 respectively). -/
theorem setup_failure_exit_status_bug :
    (mainModel { cleanWorld with ksymsOk := false } []).exitCode = 0 ∧
      (mainModel { cleanWorld with ksymsOk := false } []).report = none ∧
      (mainModel { cleanWorld with hasRa := false, hasLegacy := false }
          []).exitCode = 0 ∧
      (mainModel { cleanWorld with hasRa := false, hasLegacy := false }
          []).report = none ∧
      (mainModel { cleanWorld with attachRaErr := 7 } []).exitCode = 1 ∧
      (mainModel { cleanWorld with attachRaErr := 7 } []).report = none ∧
      (mainModel cleanWorld []).exitCode = 0 := by decide

/-- Claim C2 (counterexample): the default invocation (no -d option) parses
successfully leaving `env.duration` at its initializer -1, and the core's
blocking wait (`sleep(env.duration)`) observes this non-positive duration. -/
theorem default_duration_reaches_core :
    argp_parse initEnv [] = ParseResult.ok initEnv ∧
      initEnv.duration ≤ 0 ∧
      (mainModel cleanWorld []).sleptFor = some (-1) := by decide

theorem argp_parse_duration_inv (opts : List Opt) (e0 e : Env)
    (h0 : e0.duration = -1 ∨ 0 < e0.duration)
    (h : argp_parse e0 opts = ParseResult.ok e) :
    e.duration = -1 ∨ 0 < e.duration := by
  induction opts generalizing e0 with
  | nil =>
      simp [argp_parse] at h
      subst h
      exact h0
  | cons o rest ih =>
      cases o with
      | verbose =>
          simp [argp_parse, parse_arg] at h
          exact ih { e0 with verbose := true } h0 h
      | duration v errnoSet =>
          by_cases hc : errnoSet = true ∨ wrap32 v ≤ 0
          · simp [argp_parse, parse_arg, hc] at h
          · have hv : 0 < wrap32 v := by
              rcases not_or.mp hc with ⟨_, hv0⟩
              omega
            simp [argp_parse, parse_arg, hc] at h
            exact ih { e0 with duration := wrap32 v } (Or.inr hv) h

/-- Claim C2 (amended): a -d argument is rejected by the CLI with a usage
error before the core starts exactly when errno is set or the stored value
after the C long-to-int wrapping conversion is non-positive — so inputs such
as -4294967295, which wrap to 1, pass the check — and when no duration
option is supplied the core observes the default duration -1 (an
effectively unbounded run).  Hence a duration observed by the core is either
positive or the -1 default, not positive in every invocation. -/
theorem parsed_duration_default_or_positive :
    (∀ (e : Env) (v : Int) (errnoSet : Bool),
      (errnoSet = true ∨ wrap32 v ≤ 0) →
      parse_arg e (Opt.duration v errnoSet) = ParseResult.usageError) ∧
    (∀ e : Env, parse_arg e (Opt.duration (-4294967295) false) =
      ParseResult.ok { e with duration := 1 }) ∧
    (∀ (opts : List Opt) (e : Env), argp_parse initEnv opts =
        ParseResult.ok e → e.duration = -1 ∨ 0 < e.duration) := by
  refine ⟨fun e v errnoSet hc => by simp [parse_arg, hc], fun e => ?_,
    fun opts e h => argp_parse_duration_inv opts initEnv e (Or.inl rfl) h⟩
  have hw : wrap32 (-4294967295) = 1 := by decide
  simp [parse_arg, hw]

theorem parsed_duration_default_or_positive_witness :
    parse_arg initEnv (Opt.duration 0 false) = ParseResult.usageError ∧
      parse_arg initEnv (Opt.duration (-4294967295) false) =
        ParseResult.ok { initEnv with duration := 1 } ∧
      ((⟨5, false⟩ : Env).duration = -1 ∨ 0 < (⟨5, false⟩ : Env).duration) :=
  ⟨parsed_duration_default_or_positive.1 initEnv 0 false (Or.inr (by decide)),
    parsed_duration_default_or_positive.2.1 initEnv,
    parsed_duration_default_or_positive.2.2 [Opt.duration 5 false] ⟨5, false⟩
      (by decide)⟩

/-- Setup succeeds: memlock raised, BPF object loaded, kallsyms loaded, one
of the two entry-point pairs resolved and attached, and the two common
programs attached. -/
def setupOk (w : World) : Prop :=
  w.memlockErr = 0 ∧ w.openLoadOk = true ∧ w.ksymsOk = true ∧
    ((w.hasRa = true ∧ w.attachRaErr = 0 ∧ w.attachRaRetErr = 0) ∨
      (w.hasRa = false ∧ w.hasLegacy = true ∧ w.attachLegacyErr = 0 ∧
        w.attachLegacyRetErr = 0)) ∧
    w.attachAllocRetErr = 0 ∧ w.attachMarkAccessedErr = 0

theorem mainModel_clean (w : World) (opts : List Opt) (e : Env)
    (hp : argp_parse initEnv opts = ParseResult.ok e) (hok : setupOk w) :
    (mainModel w opts).exitCode = 0 ∧
      (mainModel w opts).report = some w.hist ∧
      (mainModel w opts).sleptFull = !w.interrupted ∧
      (mainModel w opts).sleptFor = some e.duration := by
  obtain ⟨h1, h2, h3, hbr, h5, h6⟩ := hok
  unfold mainModel
  rw [hp]
  rcases hbr with ⟨ha, hb, hc⟩ | ⟨ha, hb, hc, hd⟩
  · simp [h1, h2, h3, ha, hb, hc, afterWindowAttach, h5, h6]
  · simp [h1, h2, h3, ha, hb, hc, hd, afterWindowAttach, h5, h6]

/-- Claim C7: an operator interrupt (SIGINT) during the run causes the
blocking wait to return early, is never treated as an error (exit status
stays 0), and the program still prints the accumulated histogram report. -/
theorem sigint_clean_report (w : World) (opts : List Opt) (e : Env)
    (hp : argp_parse initEnv opts = ParseResult.ok e) (hok : setupOk w)
    (hint : w.interrupted = true) :
    (mainModel w opts).exitCode = 0 ∧
      (mainModel w opts).report = some w.hist ∧
      (mainModel w opts).sleptFull = false := by
  have h := mainModel_clean w opts e hp hok
  exact ⟨h.1, h.2.1, by rw [h.2.2.1, hint]; rfl⟩

theorem sigint_clean_report_witness :
    (mainModel { cleanWorld with interrupted := true } []).exitCode = 0 ∧
      (mainModel { cleanWorld with interrupted := true } []).report =
        some cleanWorld.hist ∧
      (mainModel { cleanWorld with interrupted := true } []).sleptFull
        = false :=
  sigint_clean_report { cleanWorld with interrupted := true } [] initEnv rfl
    ⟨rfl, rfl, rfl, Or.inl ⟨rfl, rfl, rfl⟩, rfl, rfl⟩ rfl

theorem argp_parse_append_verbose (opts : List Opt) (e0 : Env) :
    argp_parse e0 (opts ++ [Opt.verbose]) =
      match argp_parse e0 opts with
      | .ok e => .ok { e with verbose := true }
      | .usageError => .usageError := by
  induction opts generalizing e0 with
  | nil => rfl
  | cons o rest ih =>
      cases o with
      | verbose =>
          simp only [List.cons_append, argp_parse, parse_arg]
          exact ih { e0 with verbose := true }
      | duration v errnoSet =>
          by_cases hc : errnoSet = true ∨ wrap32 v ≤ 0
          · simp [argp_parse, parse_arg, hc]
          · simp only [List.cons_append, argp_parse, parse_arg, if_neg hc]
            exact ih { e0 with duration := wrap32 v }

/-- Claim C8: two runs differing only in the verbose flag have identical
core behavior — the whole observable result of main (exit status, attached
programs, histogram report, wait behavior) is the same — and the verbosity
setting changes the stderr diagnostic filter only for debug-level libbpf
messages. -/
theorem verbose_noninterference (w : World) (opts : List Opt) :
    mainModel w (opts ++ [Opt.verbose]) = mainModel w opts ∧
      (∀ lvl, libbpf_print_fn true lvl ≠ libbpf_print_fn false lvl →
        lvl = PrintLevel.debug) := by
  constructor
  · unfold mainModel
    rw [argp_parse_append_verbose]
    cases h : argp_parse initEnv opts with
    | usageError => rfl
    | ok e => rfl
  · intro lvl h
    cases lvl with
    | warn => exact absurd rfl h
    | info => exact absurd rfl h
    | debug => rfl

theorem verbose_noninterference_witness :
    mainModel cleanWorld [Opt.verbose] = mainModel cleanWorld [] ∧
      PrintLevel.debug = PrintLevel.debug :=
  ⟨(verbose_noninterference cleanWorld []).1,
    (verbose_noninterference cleanWorld []).2 PrintLevel.debug (by decide)⟩

set_option maxHeartbeats 2000000 in
/-- Claim C10: the choice of kernel entry point is deterministic with a
fixed preference order: when do_page_cache_ra resolves only its pair is
attached (never the legacy pair), regardless of whether
__do_page_cache_readahead also resolves; the legacy pair is attached only
when do_page_cache_ra is absent; when neither resolves, no readahead-window
instrumentation is attached and setup fails with no report. -/
theorem symbol_preference_order (w : World) (opts : List Opt) :
    (w.hasRa = true →
      "do_page_cache_readahead" ∉ (mainModel w opts).attached ∧
        "do_page_cache_readahead_ret" ∉ (mainModel w opts).attached) ∧
    (("do_page_cache_readahead" ∈ (mainModel w opts).attached ∨
        "do_page_cache_readahead_ret" ∈ (mainModel w opts).attached) →
      w.hasRa = false ∧ w.hasLegacy = true) ∧
    (w.hasRa = false → w.hasLegacy = false →
      (mainModel w opts).attached = [] ∧ (mainModel w opts).report = none) ∧
    ((∃ e, argp_parse initEnv opts = ParseResult.ok e) → w.memlockErr = 0 →
      w.openLoadOk = true → w.ksymsOk = true → w.hasRa = true →
      w.attachRaErr = 0 → w.attachRaRetErr = 0 →
      "do_page_cache_ra" ∈ (mainModel w opts).attached ∧
        "do_page_cache_ra_ret" ∈ (mainModel w opts).attached) := by
  unfold mainModel afterWindowAttach
  cases hp : argp_parse initEnv opts with
  | usageError => simp
  | ok e => split_ifs <;> simp_all

theorem symbol_preference_order_witness :
    ("do_page_cache_readahead" ∉ (mainModel cleanWorld []).attached ∧
      "do_page_cache_readahead_ret" ∉ (mainModel cleanWorld []).attached) ∧
      "do_page_cache_ra" ∈ (mainModel cleanWorld []).attached ∧
      "do_page_cache_ra_ret" ∈ (mainModel cleanWorld []).attached :=
  ⟨(symbol_preference_order cleanWorld []).1 rfl,
    (symbol_preference_order cleanWorld []).2.2.2 ⟨initEnv, rfl⟩ rfl rfl rfl
      rfl rfl rfl⟩

end Readahead
